import Mathlib

/-!
Verification development for the event-hub backend (Go).

The definitions below are a shallow embedding of the registration subsystem
(`backend/internal/service/registration_service.go`,
`backend/internal/repository` registration repository,
`backend/internal/domain/event.go`) and of the notification worker pool
(`backend/internal/worker` worker pool file).

Modelling conventions:
- the relational store is a `Store` value: a list of events and a list of
  registration rows, in insertion order;
- GORM `First` with a `WHERE` clause is `List.find?` over the rows in order;
  GORM `Count` is `List.countP`; an `UPDATE ... WHERE` is a `List.map` that
  rewrites the matching rows, and its `RowsAffected` is the number of matched
  rows (PostgreSQL semantics: rows matched by the `WHERE` clause count as
  affected even when the new value equals the old one);
- Go `time.Time` values are modelled as `Int` instants, `t1.Before(t2)` is
  `t1 < t2`; Go `int` is modelled as `Int`;
- Go errors produced with `fmt.Errorf` are modelled by the inductive
  `RegError`, one constructor per distinct error message family;
- the worker pool's channel is a bounded FIFO list plus a `closed` flag;
  goroutine scheduling is a small-step relation `PoolStep`.
-/

namespace EventHub

/-- Event entity (`backend/internal/domain/event.go`): identifier, organizer,
title, start/end instants, capacity, status (draft / published / cancelled).
ORM-only fields (description, location, created/updated/deleted timestamps)
carry no logic in the claims and are omitted. -/
structure Event where
  id : String
  organizerID : String
  title : String
  startDatetime : Int
  endDatetime : Int
  capacity : Int
  status : String
  deriving DecidableEq, Repr

/-- Registration row (`backend/internal/domain/registration.go`): event
reference, user reference, status. -/
structure Registration where
  userID : String
  eventID : String
  status : String
  deriving DecidableEq, Repr

/-- The relational store: events table and registrations table, rows in
insertion order. -/
structure Store where
  events : List Event
  registrations : List Registration
  deriving DecidableEq, Repr

/-- Typed model of the `fmt.Errorf` messages returned by the registration
path. `alreadyRegistered (some st)` is the message
"user already registered (status: st)"; `alreadyRegistered none` is the plain
"user already registered". `storageError` stands for a wrapped lower-level
storage failure. -/
inductive RegError where
  | eventNotFound
  | eventNotPublished
  | alreadyRegistered (priorStatus : Option String)
  | eventFull
  | registrationNotFound
  | forbidden
  | invalidStateTransition (currentStatus : String)
  | storageError (msg : String)
  deriving DecidableEq, Repr

/-- Embedding of `EventRepository.GetByID` (`backend/internal/repository/event_repository.go`):
`First` on `WHERE id = ?`; `ErrRecordNotFound` becomes `none`. -/
def GetByID (s : Store) (id : String) : Option Event :=
  s.events.find? (fun e => decide (e.id = id))

/-- Embedding of `RegistrationRepository.GetByUserAndEvent`: `First` on
`WHERE user_id = ? AND event_id = ?`; not-found is `none`, any status
matches. -/
def GetByUserAndEvent (s : Store) (userID eventID : String) : Option Registration :=
  s.registrations.find? (fun r => decide (r.userID = userID ∧ r.eventID = eventID))

/-- Embedding of `RegistrationRepository.CountByEvent`: count of rows with
`event_id = ? AND status = 'confirmed'`. -/
def CountByEvent (s : Store) (eventID : String) : Nat :=
  s.registrations.countP (fun r => decide (r.eventID = eventID ∧ r.status = "confirmed"))

/-- One row under the `UPDATE ... SET status = 'cancelled' WHERE user_id = ?
AND event_id = ?` of `RegistrationRepository.Cancel`. -/
def cancelRow (userID eventID : String) (r : Registration) : Registration :=
  if r.userID = userID ∧ r.eventID = eventID then { r with status := "cancelled" } else r

/-- Embedding of `RegistrationRepository.Cancel`: update all rows for the (user, event)
pair to status `cancelled`; if no row matched (`RowsAffected == 0`) return
the "registration not found" error. -/
def Cancel (s : Store) (userID eventID : String) : Except RegError Store :=
  let affected := s.registrations.countP
    (fun r => decide (r.userID = userID ∧ r.eventID = eventID))
  if affected = 0 then .error .registrationNotFound
  else .ok { s with registrations := s.registrations.map (cancelRow userID eventID) }

/-- One row under the status update performed by the repository check-in. -/
def checkInRow (userID eventID : String) (r : Registration) : Registration :=
  if r.userID = userID ∧ r.eventID = eventID then { r with status := "checked_in" } else r

/-- Modelled from the spec: `RegistrationRepository.CheckIn` is invoked by
`CheckInAttendee` in `registration_service.go` but its definition is not
among the provided sources. Per the spec, organizer check-in "transitions to
`checked_in`": the rows for the (attendee, event) pair get status
`checked_in`. -/
def CheckIn (s : Store) (userID eventID : String) : Store :=
  { s with registrations := s.registrations.map (checkInRow userID eventID) }

/-- Modelled from the spec: `RegistrationRepository.CreateWithCapacityCheck`
is invoked by `RegisterUser` in `registration_service.go` but its definition
is not among the provided sources. Spec section 4.2: within one atomic unit,
count the current confirmed registrations for the event; if the count is at
least `capacityLimit`, fail with `EventFull`; otherwise insert the row. The
transaction either commits the insert or leaves the store unchanged. -/
def CreateWithCapacityCheck (s : Store) (registration : Registration)
    (capacityLimit : Int) : Except RegError Store :=
  if (CountByEvent s registration.eventID : Int) ≥ capacityLimit then .error .eventFull
  else .ok { s with registrations := s.registrations ++ [registration] }

/-- Embedding of `RegistrationService.RegisterUser`
(`backend/internal/service/registration_service.go`, lines 23-65): look up
the event, require status published, reject when any existing row is found
for the pair (the cancelled case produces the message variant that includes
the prior status), then perform the atomic capacity-checked insert. The
returned store is the possibly updated database state; every error path
leaves the store unchanged. -/
def RegisterUser (s : Store) (userID eventID : String) :
    Except RegError Registration × Store :=
  match GetByID s eventID with
  | none => (.error .eventNotFound, s)
  | some event =>
    if event.status ≠ "published" then (.error .eventNotPublished, s)
    else
      match GetByUserAndEvent s userID eventID with
      | some existing =>
        if existing.status = "cancelled" then
          (.error (.alreadyRegistered (some existing.status)), s)
        else (.error (.alreadyRegistered none), s)
      | none =>
        let registration : Registration :=
          { userID := userID, eventID := eventID, status := "confirmed" }
        match CreateWithCapacityCheck s registration event.capacity with
        | .error e => (.error e, s)
        | .ok s2 => (.ok registration, s2)

/-- Embedding of `RegistrationService.CancelRegistration`: delegates to the repository. -/
def CancelRegistration (s : Store) (userID eventID : String) : Except RegError Store :=
  Cancel s userID eventID

/-- Embedding of `RegistrationService.CheckInAttendee` (lines 78-110): event must exist,
caller must be the organizer, the pair's registration must exist and be
`confirmed`, then the repository check-in runs. -/
def CheckInAttendee (s : Store) (organizerID eventID attendeeID : String) :
    Except RegError Store :=
  match GetByID s eventID with
  | none => .error .eventNotFound
  | some event =>
    if event.organizerID ≠ organizerID then .error .forbidden
    else
      match GetByUserAndEvent s attendeeID eventID with
      | none => .error .registrationNotFound
      | some registration =>
        if registration.status ≠ "confirmed" then
          .error (.invalidStateTransition registration.status)
        else .ok (CheckIn s attendeeID eventID)

/-- Embedding of `Event.Validate` (`backend/internal/domain/event.go`, lines 52-63):
title nonempty, capacity at least 1, reject only when the end instant is
strictly before the start instant, default an empty status to draft. -/
def Validate (e : Event) : Except String Event :=
  if e.title = "" then .error "title is required"
  else if e.capacity < 1 then .error "capacity must be at least 1"
  else if e.endDatetime < e.startDatetime then .error "end time must be after start time"
  else if e.status = "" then .ok { e with status := "draft" }
  else .ok e

/-- Mirror of `RegisterUser` with the single `CreateWithCapacityCheck`
invocation abstracted as an oracle (indexed by invocation number, so the
result also reports how many times the storage primitive was invoked). This
makes the control flow around lower-level storage failures explicit: the Go
service performs the call once and returns its error unchanged
(`registration_service.go`, lines 60-62), with no retry loop. -/
def RegisterUserLedgerCalls (s : Store) (userID eventID : String)
    (ledger : Nat → Except RegError Store) :
    (Except RegError Registration × Store) × Nat :=
  match GetByID s eventID with
  | none => ((.error .eventNotFound, s), 0)
  | some event =>
    if event.status ≠ "published" then ((.error .eventNotPublished, s), 0)
    else
      match GetByUserAndEvent s userID eventID with
      | some existing =>
        if existing.status = "cancelled" then
          ((.error (.alreadyRegistered (some existing.status)), s), 0)
        else ((.error (.alreadyRegistered none), s), 0)
      | none =>
        let registration : Registration :=
          { userID := userID, eventID := eventID, status := "confirmed" }
        match ledger 0 with
        | .error e => ((.error e, s), 1)
        | .ok s2 => ((.ok registration, s2), 1)

/-- Sanity link: instantiating the ledger oracle with the real
`CreateWithCapacityCheck` recovers `RegisterUser` exactly. -/
theorem registerUserLedgerCalls_agrees (s : Store) (userID eventID : String) :
    (RegisterUserLedgerCalls s userID eventID (fun _ =>
      match GetByID s eventID with
      | some event => CreateWithCapacityCheck s
          { userID := userID, eventID := eventID, status := "confirmed" } event.capacity
      | none => .error .eventNotFound)).1 = RegisterUser s userID eventID := by
  unfold RegisterUserLedgerCalls RegisterUser
  cases hev : GetByID s eventID with
  | none => rfl
  | some event =>
    by_cases hst : event.status = "published"
    · simp only [hst, ne_eq, not_true_eq_false, if_false, ite_false]
      cases hex : GetByUserAndEvent s userID eventID with
      | none =>
        cases hcc : CreateWithCapacityCheck s
            { userID := userID, eventID := eventID, status := "confirmed" } event.capacity <;>
          simp [hcc]
      | some existing => by_cases hc : existing.status = "cancelled" <;> simp [hc]
    · simp [hst]

/-! ### Notification worker pool
(`backend/internal/worker` worker pool file: `NotificationJob`, `WorkerPool`,
`Start`, `Stop`, `Submit`, `worker`). -/

/-- Persisted notification record (`backend/internal/domain`), reduced to
the fields the pool's logic reads. -/
structure Notification where
  userID : String
  title : String
  message : String
  deriving DecidableEq, Repr

/-- The `NotificationJob` struct: a persisted notification plus delivery metadata. -/
structure NotificationJob where
  notification : Notification
  destEmail : String
  deriving DecidableEq, Repr

/-- Worker pool state. `jobQueue`/`bufferSize`/`closed` model the buffered
`chan NotificationJob` (contents in FIFO order, channel capacity, whether
`close` has run); `workerCount` is the configured number of workers;
`workers` counts the worker goroutines that are still running; `processed`
accumulates the jobs that workers have taken and processed; `log` is the
standard-output log (used for the queue-full drop message of `Submit`). -/
structure WorkerPool where
  jobQueue : List NotificationJob
  bufferSize : Nat
  closed : Bool
  workerCount : Nat
  workers : Nat
  processed : List NotificationJob
  log : List String
  deriving DecidableEq, Repr

/-- A Go runtime panic the pool code can raise. -/
inductive PoolPanic where
  | sendOnClosedChannel
  deriving DecidableEq, Repr

/-- Embedding of `NewWorkerPool(workerCount, bufferSize)`: empty open channel, no workers
running yet. -/
def NewWorkerPool (workerCount bufferSize : Nat) : WorkerPool :=
  { jobQueue := [], bufferSize := bufferSize, closed := false,
    workerCount := workerCount, workers := 0, processed := [], log := [] }

/-- Embedding of `Start`: spawns `workerCount` worker goroutines. -/
def Start (p : WorkerPool) : WorkerPool :=
  { p with workers := p.workerCount }

/-- The drop message `Submit` prints when the queue is full. -/
def dropMessage (job : NotificationJob) : String :=
  "WorkerPool queue full, dropping notification for user " ++ job.notification.userID

/-- Embedding of `Submit` (worker pool file, lines 192-200): a `select` with a `default`
branch around a channel send. Sending on a closed channel panics (and in a
`select` the send on a closed channel is a ready case, so the panic is taken
rather than the `default` branch); otherwise, if the buffer has a free slot
the job is enqueued, and if the buffer is full the `default` branch runs: the
job is dropped and the drop is printed. The function is total - it never
blocks the caller. -/
def Submit (p : WorkerPool) (job : NotificationJob) : Except PoolPanic WorkerPool :=
  if p.closed then .error .sendOnClosedChannel
  else if p.jobQueue.length < p.bufferSize then
    .ok { p with jobQueue := p.jobQueue ++ [job] }
  else .ok { p with log := p.log ++ [dropMessage job] }

/-- The first action of `Stop` (worker pool file, line 186): `close(JobQueue)`.
After this, `Submit` panics and workers exit once the buffer drains. -/
def closeQueue (p : WorkerPool) : WorkerPool :=
  { p with closed := true }

/-- Small-step semantics of the worker goroutines
(`for job := range wp.JobQueue`): a running worker receives the job at the
head of the buffer and processes it, or - once the channel is closed and the
buffer is empty - its range loop ends and it exits (its `wg.Done` runs). -/
inductive PoolStep : WorkerPool → WorkerPool → Prop where
  | processJob (p : WorkerPool) (j : NotificationJob) (rest : List NotificationJob)
      (hq : p.jobQueue = j :: rest) (hw : 0 < p.workers) :
      PoolStep p { p with jobQueue := rest, processed := p.processed ++ [j] }
  | workerExit (p : WorkerPool)
      (hq : p.jobQueue = []) (hc : p.closed = true) (hw : 0 < p.workers) :
      PoolStep p { p with workers := p.workers - 1 }

/-- Finitely many scheduler steps. -/
def PoolSteps : WorkerPool → WorkerPool → Prop :=
  Relation.ReflTransGen PoolStep

/-- The `Submit` call applied to a whole list of jobs in order (the submission phase
of the graceful-shutdown scenario; a panic would leave the pool as it was,
but no panic occurs while the pool is open). -/
def submitAll : WorkerPool → List NotificationJob → WorkerPool
  | p, [] => p
  | p, j :: js =>
    submitAll (match Submit p j with | .ok q2 => q2 | .error _ => p) js

/-! ### Concrete fixtures used by witnesses and counterexamples -/

/-- A published event with plenty of capacity. -/
def eventPub : Event :=
  { id := "e1", organizerID := "org1", title := "Launch Party",
    startDatetime := 0, endDatetime := 10, capacity := 10, status := "published" }

/-- A draft event. -/
def eventDraft : Event :=
  { id := "e8", organizerID := "org8", title := "Draft Meetup",
    startDatetime := 0, endDatetime := 10, capacity := 5, status := "draft" }

/-- Store holding only the draft event. -/
def storeDraft : Store := { events := [eventDraft], registrations := [] }

/-- Store with the published event and a single cancelled registration row
for user u1. -/
def storeCancelledRow : Store :=
  { events := [eventPub],
    registrations := [{ userID := "u1", eventID := "e1", status := "cancelled" }] }

/-- Store with the published event and a single confirmed registration row
for user u1. -/
def storeConfirmedRow : Store :=
  { events := [eventPub],
    registrations := [{ userID := "u1", eventID := "e1", status := "confirmed" }] }

/-- Store with the published event and no registrations. -/
def storeEmpty : Store := { events := [eventPub], registrations := [] }

/-- A ledger oracle whose first invocation hits a transient storage failure
and whose second invocation would succeed - the situation in which a
retry-once coordinator would recover. -/
def ledgerFailsOnce : Nat → Except RegError Store := fun n =>
  if n = 0 then .error (.storageError "deadlock detected") else .ok storeConfirmedRow

/-- A notification job fixture. -/
def jobA : NotificationJob :=
  { notification := { userID := "nu1", title := "Welcome", message := "hi" },
    destEmail := "a@example.com" }

/-- A second notification job fixture. -/
def jobB : NotificationJob :=
  { notification := { userID := "nu2", title := "Reminder", message := "soon" },
    destEmail := "b@example.com" }

/-! ### C8 - unpublished events reject every registration -/

/-- C8: for every store, user and event, if the event exists and its status
is not `published` (draft, cancelled, ...), `RegisterUser` fails with the
`EventNotPublished` error regardless of capacity or registration count, and
the store is unchanged (no registration row is created). -/
theorem register_unpublished_always_rejected (s : Store) (userID eventID : String)
    (event : Event) (hev : GetByID s eventID = some event)
    (hst : event.status ≠ "published") :
    RegisterUser s userID eventID = (.error .eventNotPublished, s) := by
  unfold RegisterUser
  rw [hev]
  simp [hst]

theorem register_unpublished_always_rejected_witness :
    RegisterUser storeDraft "u8" "e8" = (.error .eventNotPublished, storeDraft) :=
  register_unpublished_always_rejected storeDraft "u8" "e8" eventDraft (by decide)
    (by decide)

/-! ### C9 - Validate accepts an event whose end equals its start -/

/-- A syntactically well-formed event whose end instant equals its start
instant. -/
def eventEndEqStart : Event :=
  { id := "e9", organizerID := "org9", title := "Boundary Event",
    startDatetime := 100, endDatetime := 100, capacity := 1, status := "draft" }

/-- C9: `Validate` only rejects when the end instant is strictly before the
start instant (`e.EndDatetime.Before(e.StartDatetime)`), so an event whose
end equals its start is accepted - contradicting the end-after-start rule
stated by the spec and by the code's own error message. -/
theorem validate_accepts_end_equal_start :
    Validate eventEndEqStart = .ok eventEndEqStart ∧
    eventEndEqStart.endDatetime = eventEndEqStart.startDatetime := by
  constructor <;> rfl

/-! ### C10 - Submit after Stop panics -/

/-- C10: once the pool's channel is closed (the first action of `Stop`),
any `Submit` call panics with send-on-closed-channel instead of returning
or dropping the job; in a `select`, a send on a closed channel is a ready
case, so the `default` branch does not save the caller. -/
theorem submit_after_close_panics (p : WorkerPool) (job : NotificationJob)
    (h : p.closed = true) :
    Submit p job = .error .sendOnClosedChannel := by
  simp [Submit, h]

theorem submit_after_close_panics_witness :
    Submit (closeQueue (Start (NewWorkerPool 2 4))) jobA = .error .sendOnClosedChannel :=
  submit_after_close_panics (closeQueue (Start (NewWorkerPool 2 4))) jobA rfl

/-! ### C6 - Submit is non-blocking: enqueue on free capacity, observable
drop on a full queue -/

/-- C6: on an open pool, `Submit` is a total (non-blocking) function: when
the buffer has a free slot the job is appended to the queue and nothing is
logged; when the buffer is full the queue is left unchanged and the drop is
made observable by the logged drop message. -/
theorem submit_enqueue_or_drop (p : WorkerPool) (job : NotificationJob)
    (h : p.closed = false) :
    (p.jobQueue.length < p.bufferSize →
      Submit p job = .ok { p with jobQueue := p.jobQueue ++ [job] }) ∧
    (p.bufferSize ≤ p.jobQueue.length →
      Submit p job = .ok { p with log := p.log ++ [dropMessage job] }) := by
  constructor
  · intro hlt
    simp [Submit, h, hlt]
  · intro hge
    simp [Submit, h, Nat.not_lt.mpr hge]

/-- A one-slot pool with an empty buffer. -/
def openPoolEmpty : WorkerPool := Start (NewWorkerPool 2 1)

/-- The same pool with its single buffer slot occupied. -/
def openPoolFull : WorkerPool := { openPoolEmpty with jobQueue := [jobA] }

theorem submit_enqueue_or_drop_witness :
    Submit openPoolEmpty jobB = .ok { openPoolEmpty with jobQueue := [jobB] } ∧
    Submit openPoolFull jobB = .ok { openPoolFull with log := [dropMessage jobB] } :=
  ⟨(submit_enqueue_or_drop openPoolEmpty jobB rfl).1 (by decide),
   (submit_enqueue_or_drop openPoolFull jobB rfl).2 (by decide)⟩

/-! ### C2 - a prior cancelled registration blocks re-registration -/

/-- C2 counterexample: with a published event of capacity 10, zero confirmed
registrations and a single existing registration row in status `cancelled`
for the pair, `RegisterUser` fails with the already-registered error (the
message variant that reports status cancelled) and leaves the store
unchanged - it does not proceed to the capacity check. -/
theorem register_after_cancel_is_blocked :
    RegisterUser storeCancelledRow "u1" "e1" =
      (.error (.alreadyRegistered (some "cancelled")), storeCancelledRow) := by
  rfl

/-- C2 amended: whenever the pair's existing registration row has status
`cancelled` (and the event is published), `RegisterUser` fails with the
already-registered error rather than proceeding to the capacity check: a
prior cancelled registration does block re-registration in this code. -/
theorem register_with_cancelled_row_rejected (s : Store) (userID eventID : String)
    (event : Event) (r : Registration)
    (hev : GetByID s eventID = some event) (hpub : event.status = "published")
    (hex : GetByUserAndEvent s userID eventID = some r) (hc : r.status = "cancelled") :
    RegisterUser s userID eventID = (.error (.alreadyRegistered (some "cancelled")), s) := by
  unfold RegisterUser
  rw [hev]
  simp [hpub, hex, hc]

theorem register_with_cancelled_row_rejected_witness :
    RegisterUser storeCancelledRow "u1" "e1" =
      (.error (.alreadyRegistered (some "cancelled")), storeCancelledRow) :=
  register_with_cancelled_row_rejected storeCancelledRow "u1" "e1" eventPub
    { userID := "u1", eventID := "e1", status := "cancelled" }
    (by decide) (by decide) (by decide) (by decide)

/-! ### C7 - the coordinator does not retry storage failures -/

/-- C7 counterexample: a transient storage failure on the capacity-checked
insert is surfaced directly after a single ledger invocation, even though a
retry would have succeeded (`ledgerFailsOnce 1` is a success); there is no
second attempt and no distinct StorageUnavailable error - the raw storage
error is returned as-is. -/
theorem register_no_retry_on_storage_error :
    RegisterUserLedgerCalls storeEmpty "u7" "e1" ledgerFailsOnce =
      ((.error (.storageError "deadlock detected"), storeEmpty), 1) := by
  rfl

/-- C7 amended: when the business checks pass and the storage primitive
fails, `RegisterUser` invokes the primitive exactly once and returns that
failure unchanged to the caller - there is no retry and no translation into
a separate StorageUnavailable error. -/
theorem register_storage_error_surfaced_once (s : Store) (userID eventID : String)
    (event : Event) (ledger : Nat → Except RegError Store) (err : RegError)
    (hev : GetByID s eventID = some event) (hpub : event.status = "published")
    (hnone : GetByUserAndEvent s userID eventID = none)
    (hfail : ledger 0 = .error err) :
    RegisterUserLedgerCalls s userID eventID ledger = ((.error err, s), 1) := by
  unfold RegisterUserLedgerCalls
  rw [hev]
  simp [hpub, hnone, hfail]

theorem register_storage_error_surfaced_once_witness :
    RegisterUserLedgerCalls storeEmpty "u7b" "e1" ledgerFailsOnce =
      ((.error (.storageError "deadlock detected"), storeEmpty), 1) :=
  register_storage_error_surfaced_once storeEmpty "u7b" "e1" eventPub ledgerFailsOnce
    (.storageError "deadlock detected") (by decide) (by decide) (by decide) rfl

/-! ### C4 - re-cancel silently succeeds; only a missing row errors -/

lemma cancelRow_userID (userID eventID : String) (r : Registration) :
    (cancelRow userID eventID r).userID = r.userID := by
  unfold cancelRow
  split <;> rfl

lemma cancelRow_eventID (userID eventID : String) (r : Registration) :
    (cancelRow userID eventID r).eventID = r.eventID := by
  unfold cancelRow
  split <;> rfl

/-- The `UPDATE` of `Cancel` never changes which rows match the (user, event)
pair, so the matched-row count is stable under it. -/
lemma countP_pair_map_cancelRow (l : List Registration) (userID eventID : String) :
    ((l.map (cancelRow userID eventID)).countP
        (fun r => decide (r.userID = userID ∧ r.eventID = eventID))) =
    l.countP (fun r => decide (r.userID = userID ∧ r.eventID = eventID)) := by
  rw [List.countP_map]
  apply List.countP_congr
  intro r _
  simp [Function.comp, cancelRow_userID, cancelRow_eventID]

/-- C4 counterexample: with a single confirmed row for the pair, cancelling
twice in a row succeeds both times - the second cancel matches the already
cancelled row (`RowsAffected` counts matched rows), updates it to the value
it already has, and returns success rather than an error. -/
theorem cancel_twice_silently_succeeds :
    Cancel storeConfirmedRow "u1" "e1" = .ok storeCancelledRow ∧
    Cancel storeCancelledRow "u1" "e1" = .ok storeCancelledRow := by
  constructor <;> rfl

/-- C4 amended: `Cancel` returns the registration-not-found error exactly
when no registration row (of any status) exists for the pair; whenever a
cancel succeeds, cancelling again also succeeds (a silent no-op on the
already cancelled row), so a double cancel never errors on the second
call. -/
theorem cancel_errors_iff_no_row (s : Store) (userID eventID : String) :
    (s.registrations.countP
        (fun r => decide (r.userID = userID ∧ r.eventID = eventID)) = 0 →
      Cancel s userID eventID = .error .registrationNotFound) ∧
    (∀ s1, Cancel s userID eventID = .ok s1 →
      ∃ s2, Cancel s1 userID eventID = .ok s2) := by
  constructor
  · intro h0
    rw [Cancel]
    exact if_pos h0
  · intro s1 h1
    by_cases h0 : s.registrations.countP
        (fun r => decide (r.userID = userID ∧ r.eventID = eventID)) = 0
    · rw [Cancel] at h1
      rw [if_pos h0] at h1
      exact absurd h1 (by simp)
    · rw [Cancel] at h1
      rw [if_neg h0] at h1
      injection h1 with h1
      subst h1
      have hne : ¬ (List.map (cancelRow userID eventID) s.registrations).countP
          (fun r => decide (r.userID = userID ∧ r.eventID = eventID)) = 0 := by
        rw [countP_pair_map_cancelRow]
        exact h0
      exact ⟨_, by rw [Cancel]; exact if_neg hne⟩

theorem cancel_errors_iff_no_row_witness :
    Cancel storeEmpty "u1" "e1" = .error .registrationNotFound ∧
    ∃ s2, Cancel storeCancelledRow "u1" "e1" = .ok s2 :=
  ⟨(cancel_errors_iff_no_row storeEmpty "u1" "e1").1 rfl,
   (cancel_errors_iff_no_row storeConfirmedRow "u1" "e1").2 storeCancelledRow rfl⟩

/-! ### C3 - check-in removes the registration from the capacity count -/

/-- Store with the published event and the u1 row already checked in. -/
def storeCheckedInRow : Store :=
  { events := [eventPub],
    registrations := [{ userID := "u1", eventID := "e1", status := "checked_in" }] }

/-- Rewriting the pair's rows to `checked_in` removes exactly the pair's
confirmed rows from the confirmed count: confirmed-count after the update
plus the number of the pair's rows that were confirmed equals the
confirmed-count before. -/
lemma countP_confirmed_map_checkInRow (userID eventID eid : String)
    (l : List Registration) :
    (l.map (checkInRow userID eventID)).countP
        (fun r => decide (r.eventID = eid ∧ r.status = "confirmed")) +
      l.countP (fun r => decide ((r.userID = userID ∧ r.eventID = eventID) ∧
        r.eventID = eid ∧ r.status = "confirmed")) =
    l.countP (fun r => decide (r.eventID = eid ∧ r.status = "confirmed")) := by
  induction l with
  | nil => rfl
  | cons x xs ih =>
    simp only [List.map_cons, List.countP_cons]
    by_cases hp : x.userID = userID ∧ x.eventID = eventID
    · have hfx : checkInRow userID eventID x = { x with status := "checked_in" } :=
        if_pos hp
      have h1 : decide ((checkInRow userID eventID x).eventID = eid ∧
          (checkInRow userID eventID x).status = "confirmed") = false := by
        rw [hfx]
        simp only [decide_eq_false_iff_not]
        intro h
        exact absurd h.2 (by decide)
      have h2 : decide ((x.userID = userID ∧ x.eventID = eventID) ∧
          x.eventID = eid ∧ x.status = "confirmed") =
          decide (x.eventID = eid ∧ x.status = "confirmed") := by
        by_cases hc : x.eventID = eid ∧ x.status = "confirmed"
        · simp [hp, hc]
        · simp [hc]
      simp only [h1, h2]
      simp only [Bool.false_eq_true, if_false]
      omega
    · have hfx : checkInRow userID eventID x = x := if_neg hp
      have h2 : decide ((x.userID = userID ∧ x.eventID = eventID) ∧
          x.eventID = eid ∧ x.status = "confirmed") = false := by
        simp only [decide_eq_false_iff_not]
        exact fun h => hp h.1
      simp only [hfx, h2]
      simp only [Bool.false_eq_true, if_false]
      omega

/-- C3 counterexample: a confirmed attendee of the published capacity-10
event is checked in by the organizer; the check-in succeeds, but the
confirmed-registration count for the event drops from 1 to 0 - the
checked-in registration no longer occupies a capacity slot under
`CountByEvent`, which counts only status `confirmed`. -/
theorem checkin_changes_confirmed_count :
    CheckInAttendee storeConfirmedRow "org1" "e1" "u1" = .ok storeCheckedInRow ∧
    CountByEvent storeConfirmedRow "e1" = 1 ∧
    CountByEvent storeCheckedInRow "e1" = 0 :=
  ⟨rfl, rfl, rfl⟩

/-- C3 amended: a successful `CheckInAttendee` call on a (user, event) pair
with exactly one registration row decreases the event's confirmed count by
exactly one: the checked-in registration stops counting against capacity
(`CountByEvent` counts only `confirmed` rows), freeing a slot. -/
theorem checkin_frees_capacity_slot (s s2 : Store)
    (organizerID eventID attendeeID : String)
    (hone : s.registrations.countP
        (fun r => decide (r.userID = attendeeID ∧ r.eventID = eventID)) = 1)
    (hok : CheckInAttendee s organizerID eventID attendeeID = .ok s2) :
    CountByEvent s2 eventID + 1 = CountByEvent s eventID := by
  rw [CheckInAttendee] at hok
  split at hok
  · exact Except.noConfusion hok
  case h_2 event hev =>
    split at hok
    · exact Except.noConfusion hok
    case isFalse horg =>
      split at hok
      · exact Except.noConfusion hok
      case h_2 registration hreg =>
        split at hok
        · exact Except.noConfusion hok
        case isFalse hst =>
          have hconf : registration.status = "confirmed" := by
            by_contra hcon
            exact hst hcon
          injection hok with hok
          rw [GetByUserAndEvent] at hreg
          have hmem : registration ∈ s.registrations :=
            List.mem_of_find?_eq_some hreg
          have hpair := List.find?_some hreg
          have hpair2 : registration.userID = attendeeID ∧
              registration.eventID = eventID := by simpa using hpair
          have hBle : s.registrations.countP
              (fun r => decide ((r.userID = attendeeID ∧ r.eventID = eventID) ∧
                r.eventID = eventID ∧ r.status = "confirmed")) ≤
              s.registrations.countP
              (fun r => decide (r.userID = attendeeID ∧ r.eventID = eventID)) := by
            apply List.countP_mono_left
            intro r _ h
            simp only [decide_eq_true_eq] at h ⊢
            exact h.1
          have hBpos : 0 < s.registrations.countP
              (fun r => decide ((r.userID = attendeeID ∧ r.eventID = eventID) ∧
                r.eventID = eventID ∧ r.status = "confirmed")) := by
            rw [List.countP_pos_iff]
            exact ⟨registration, hmem, by
              simp only [decide_eq_true_eq]
              exact ⟨hpair2, hpair2.2, hconf⟩⟩
          have hB1 : s.registrations.countP
              (fun r => decide ((r.userID = attendeeID ∧ r.eventID = eventID) ∧
                r.eventID = eventID ∧ r.status = "confirmed")) = 1 := by omega
          have hkey := countP_confirmed_map_checkInRow attendeeID eventID eventID
            s.registrations
          rw [hB1] at hkey
          rw [← hok]
          unfold CountByEvent CheckIn
          exact hkey

theorem checkin_frees_capacity_slot_witness :
    CountByEvent storeCheckedInRow "e1" + 1 = CountByEvent storeConfirmedRow "e1" :=
  checkin_frees_capacity_slot storeConfirmedRow storeCheckedInRow "org1" "e1" "u1"
    rfl rfl

/-! ### C1 - concurrent registrations: exactly min(N, C) succeed -/

/-- One `RegisterUser` call per user, in a given serialization order,
returning (number of successes, number of `EventFull` failures, final
store). Under the spec's isolation guarantee the atomic capacity-checked
inserts of concurrent callers serialize, so a set of N concurrent calls is
modelled by quantifying over every serialization order of N distinct
users. -/
def registerAll (s : Store) (eventID : String) : List String → Nat × Nat × Store
  | [] => (0, 0, s)
  | u :: us =>
    match RegisterUser s u eventID with
    | (.ok _, s2) =>
      let r := registerAll s2 eventID us
      (r.1 + 1, r.2.1, r.2.2)
    | (.error .eventFull, s2) =>
      let r := registerAll s2 eventID us
      (r.1, r.2.1 + 1, r.2.2)
    | (.error _, s2) =>
      let r := registerAll s2 eventID us
      (r.1, r.2.1, r.2.2)

/-- A `RegisterUser` call on a published event at full capacity fails with
`EventFull` and leaves the store unchanged. -/
lemma RegisterUser_full (s : Store) (u eid : String) (event : Event)
    (hev : GetByID s eid = some event) (hpub : event.status = "published")
    (hnone : GetByUserAndEvent s u eid = none)
    (hge : event.capacity ≤ (CountByEvent s eid : Int)) :
    RegisterUser s u eid = (.error .eventFull, s) := by
  rw [RegisterUser, hev, hnone]
  simp only [hpub, ne_eq, not_true_eq_false, if_false, ite_false]
  rw [CreateWithCapacityCheck]
  rw [if_pos hge]

/-- A `RegisterUser` call on a published event with a free slot inserts the
confirmed row. -/
lemma RegisterUser_insert (s : Store) (u eid : String) (event : Event)
    (hev : GetByID s eid = some event) (hpub : event.status = "published")
    (hnone : GetByUserAndEvent s u eid = none)
    (hlt : (CountByEvent s eid : Int) < event.capacity) :
    RegisterUser s u eid =
      (.ok { userID := u, eventID := eid, status := "confirmed" },
       { s with registrations := s.registrations ++
          [{ userID := u, eventID := eid, status := "confirmed" }] }) := by
  rw [RegisterUser, hev, hnone]
  simp only [hpub, ne_eq, not_true_eq_false, if_false, ite_false]
  rw [CreateWithCapacityCheck]
  rw [if_neg (by exact not_le.mpr hlt)]

/-- Appending a confirmed row for the event increments its confirmed
count. -/
lemma CountByEvent_append_confirmed (s : Store) (u eid : String) :
    CountByEvent { s with registrations := s.registrations ++
      [{ userID := u, eventID := eid, status := "confirmed" }] } eid =
    CountByEvent s eid + 1 := by
  unfold CountByEvent
  rw [List.countP_append]
  simp

/-- Appending a row for a different user cannot create a row for this
user's pair. -/
lemma GetByUserAndEvent_append_other (s : Store) (u u2 eid : String) (hne : u ≠ u2)
    (hn : GetByUserAndEvent s u2 eid = none) :
    GetByUserAndEvent { s with registrations := s.registrations ++
      [{ userID := u, eventID := eid, status := "confirmed" }] } u2 eid = none := by
  unfold GetByUserAndEvent at hn ⊢
  rw [List.find?_eq_none] at hn ⊢
  intro x hx
  rcases List.mem_append.mp hx with h | h
  · exact hn x h
  · rcases List.mem_singleton.mp h with rfl
    simp [hne]

/-- Serialized run of one `RegisterUser` per distinct user: the number of
successes is min(remaining users, remaining slots), every other call fails
`EventFull`, and the confirmed count grows by the number of successes. -/
lemma registerAll_run (C : Nat) (eid : String) (event : Event)
    (hpub : event.status = "published") (hcap : event.capacity = (C : Int))
    (users : List String) :
    ∀ (s : Store), users.Nodup →
      GetByID s eid = some event →
      (∀ u ∈ users, GetByUserAndEvent s u eid = none) →
      (registerAll s eid users).1 =
        min users.length (C - CountByEvent s eid) ∧
      (registerAll s eid users).2.1 =
        users.length - min users.length (C - CountByEvent s eid) ∧
      CountByEvent (registerAll s eid users).2.2 eid =
        CountByEvent s eid + min users.length (C - CountByEvent s eid) := by
  induction users with
  | nil =>
    intro s _ _ _
    simp [registerAll]
  | cons u us ih =>
    intro s hnd hev hnone
    have hnd2 : us.Nodup := hnd.of_cons
    have hmem : u ∉ us := (List.nodup_cons.mp hnd).1
    have hnoneu : GetByUserAndEvent s u eid = none := hnone u (List.mem_cons_self u us)
    by_cases hfull : event.capacity ≤ (CountByEvent s eid : Int)
    · -- capacity already reached: this call and all later ones fail EventFull
      have hkC : C ≤ CountByEvent s eid := by
        rw [hcap] at hfull
        exact_mod_cast hfull
      have hreg := RegisterUser_full s u eid event hev hpub hnoneu hfull
      have hrec := ih s hnd2 hev (fun u2 h2 => hnone u2 (List.mem_cons_of_mem u h2))
      rw [registerAll, hreg]
      simp only []
      refine ⟨?_, ?_, ?_⟩ <;> (simp only [List.length_cons]; omega)
    · -- a slot is free: the call inserts the confirmed row
      have hlt : (CountByEvent s eid : Int) < event.capacity := not_le.mp hfull
      have hkC : CountByEvent s eid < C := by
        rw [hcap] at hlt
        exact_mod_cast hlt
      have hreg := RegisterUser_insert s u eid event hev hpub hnoneu hlt
      set s2 : Store := { s with registrations := s.registrations ++
        [{ userID := u, eventID := eid, status := "confirmed" }] } with hs2
      have hev2 : GetByID s2 eid = some event := hev
      have hnone2 : ∀ u2 ∈ us, GetByUserAndEvent s2 u2 eid = none := by
        intro u2 h2
        exact GetByUserAndEvent_append_other s u u2 eid
          (fun he => hmem (he ▸ h2)) (hnone u2 (List.mem_cons_of_mem u h2))
      have hcount2 : CountByEvent s2 eid = CountByEvent s eid + 1 :=
        CountByEvent_append_confirmed s u eid
      have hrec := ih s2 hnd2 hev2 hnone2
      rw [hcount2] at hrec
      rw [registerAll, hreg]
      simp only []
      refine ⟨?_, ?_, ?_⟩ <;> (simp only [List.length_cons]; omega)

/-- C1: for every set of N distinct users concurrently registering for a
published event with capacity C and 0 existing confirmed registrations
(and no pre-existing rows for those users), in every serialization order of
the atomic capacity-checked inserts exactly min(N, C) of the calls succeed,
the other N - min(N, C) fail with `EventFull`, and the final confirmed
count for the event is exactly min(N, C). -/
theorem concurrent_registration_capacity (users : List String) (s : Store)
    (eid : String) (event : Event) (C : Nat)
    (hnd : users.Nodup)
    (hev : GetByID s eid = some event)
    (hpub : event.status = "published")
    (hcap : event.capacity = (C : Int))
    (hzero : CountByEvent s eid = 0)
    (hnone : ∀ u ∈ users, GetByUserAndEvent s u eid = none) :
    (registerAll s eid users).1 = min users.length C ∧
    (registerAll s eid users).2.1 = users.length - min users.length C ∧
    CountByEvent (registerAll s eid users).2.2 eid = min users.length C := by
  have h := registerAll_run C eid event hpub hcap users s hnd hev hnone
  rw [hzero] at h
  simpa using h

/-- The capacity-2 published event of the C1 witness scenario. -/
def eventCap2 : Event :=
  { id := "ec", organizerID := "orgc", title := "Hot Event",
    startDatetime := 0, endDatetime := 10, capacity := 2, status := "published" }

/-- Store holding only the capacity-2 event, with no registrations. -/
def storeCap2 : Store := { events := [eventCap2], registrations := [] }

theorem concurrent_registration_capacity_witness :
    (registerAll storeCap2 "ec" ["ua", "ub", "uc"]).1 = min 3 2 ∧
    (registerAll storeCap2 "ec" ["ua", "ub", "uc"]).2.1 = 3 - min 3 2 ∧
    CountByEvent (registerAll storeCap2 "ec" ["ua", "ub", "uc"]).2.2 "ec" = min 3 2 :=
  concurrent_registration_capacity ["ua", "ub", "uc"] storeCap2 "ec" eventCap2 2
    (by decide) (by decide) (by decide) (by decide) (by decide)
    (by intro u hu; fin_cases hu <;> rfl)

/-! ### C5 - Stop drains every queued job before the pool stops -/

/-- A single worker step keeps the closed flag, conserves the jobs
(processed plus queued), and can only produce an all-workers-exited state
with an empty queue. -/
lemma poolStep_inv (b c : WorkerPool) (hbc : PoolStep b c) :
    c.closed = b.closed ∧
    c.processed ++ c.jobQueue = b.processed ++ b.jobQueue ∧
    (c.workers = 0 → c.jobQueue = []) := by
  cases hbc with
  | processJob j rest hq hwb =>
    refine ⟨rfl, ?_, ?_⟩
    · calc b.processed ++ [j] ++ rest
          = b.processed ++ (j :: rest) := by simp
        _ = b.processed ++ b.jobQueue := by rw [hq]
    · intro h0
      have h0b : b.workers = 0 := h0
      omega
  | workerExit hq hcb hwb =>
    exact ⟨rfl, rfl, fun _ => hq⟩

/-- Along any scheduling after the channel is closed, the pool stays closed,
the jobs are conserved (processed plus still-queued equals the original
processed plus queued), and since a worker's range loop only ends on an
empty closed channel, a pool whose workers have all exited has an empty
queue. -/
lemma poolSteps_drain_invariant (p q : WorkerPool)
    (hreach : PoolSteps p q) (hc : p.closed = true) (hw : 0 < p.workers) :
    q.closed = true ∧
    q.processed ++ q.jobQueue = p.processed ++ p.jobQueue ∧
    (q.workers = 0 → q.jobQueue = []) := by
  induction hreach with
  | refl => exact ⟨hc, rfl, fun h0 => absurd h0 (by omega)⟩
  | tail hab hbc ih =>
    obtain ⟨ihc, ihcons, _⟩ := ih
    obtain ⟨sc, scons, sw⟩ := poolStep_inv _ _ hbc
    exact ⟨sc.trans ihc, scons.trans ihcons, sw⟩

/-- Submitting a batch that fits in the buffer of an open pool enqueues all
of it, in order, and changes nothing else. -/
lemma submitAll_open (jobs : List NotificationJob) :
    ∀ (p : WorkerPool), p.closed = false →
      p.jobQueue.length + jobs.length ≤ p.bufferSize →
      submitAll p jobs = { p with jobQueue := p.jobQueue ++ jobs } := by
  induction jobs with
  | nil =>
    intro p _ _
    simp [submitAll]
  | cons j js ih =>
    intro p hopen hlen
    have hlt : p.jobQueue.length < p.bufferSize := by
      simp only [List.length_cons] at hlen
      omega
    have hsub : Submit p j = .ok { p with jobQueue := p.jobQueue ++ [j] } := by
      simp [Submit, hopen, hlt]
    rw [submitAll, hsub]
    have hrec := ih { p with jobQueue := p.jobQueue ++ [j] } hopen
      (by simp only [List.length_append, List.length_cons, List.length_nil]
          simp only [List.length_cons] at hlen
          omega)
    rw [hrec]
    simp

/-- C5: take any running pool (open queue, at least one worker) and submit
K jobs with K at most the queue capacity; `Stop` first closes the queue,
then waits for every worker to exit. In every scheduling of the workers
that reaches the all-workers-exited state (the point where `Stop` returns),
the queue is empty and all K submitted jobs have been processed. -/
theorem stop_drains_all_jobs (p : WorkerPool) (jobs : List NotificationJob)
    (q : WorkerPool)
    (hopen : p.closed = false) (hw : 0 < p.workers) (hq0 : p.jobQueue = [])
    (hK : jobs.length ≤ p.bufferSize)
    (hreach : PoolSteps (closeQueue (submitAll p jobs)) q)
    (hstopped : q.workers = 0) :
    q.jobQueue = [] ∧ q.processed = p.processed ++ jobs := by
  have hsub : submitAll p jobs = { p with jobQueue := p.jobQueue ++ jobs } :=
    submitAll_open jobs p hopen (by rw [hq0]; simpa using hK)
  rw [hsub] at hreach
  have hinv := poolSteps_drain_invariant _ q hreach rfl (by simpa using hw)
  obtain ⟨_, hcons, hempty⟩ := hinv
  have hqe : q.jobQueue = [] := hempty hstopped
  refine ⟨hqe, ?_⟩
  rw [hqe, List.append_nil] at hcons
  rw [hcons]
  simp only [closeQueue]
  rw [hq0]
  simp

/-- The single-worker two-slot pool of the C5 witness scenario. -/
def poolW : WorkerPool := Start (NewWorkerPool 1 2)

/-- The witness pool just after `Stop` closed the queue holding both jobs. -/
def poolWc0 : WorkerPool := closeQueue (submitAll poolW [jobA, jobB])

/-- Witness pool after the worker processed the first job. -/
def poolWc1 : WorkerPool := { poolWc0 with jobQueue := [jobB], processed := [jobA] }

/-- Witness pool after the worker processed both jobs. -/
def poolWc2 : WorkerPool := { poolWc1 with jobQueue := [], processed := [jobA, jobB] }

/-- Witness pool after the worker exited: the state in which `Stop`
returns. -/
def poolWc3 : WorkerPool := { poolWc2 with workers := 0 }

theorem stop_drains_all_jobs_witness :
    poolWc3.jobQueue = [] ∧ poolWc3.processed = poolW.processed ++ [jobA, jobB] := by
  have s1 : PoolStep poolWc0 poolWc1 :=
    PoolStep.processJob poolWc0 jobA [jobB] rfl (by decide)
  have s2 : PoolStep poolWc1 poolWc2 :=
    PoolStep.processJob poolWc1 jobB [] rfl (by decide)
  have s3 : PoolStep poolWc2 poolWc3 :=
    PoolStep.workerExit poolWc2 rfl rfl (by decide)
  have hreach : PoolSteps poolWc0 poolWc3 :=
    Relation.ReflTransGen.tail
      (Relation.ReflTransGen.tail (Relation.ReflTransGen.tail .refl s1) s2) s3
  exact stop_drains_all_jobs poolW [jobA, jobB] poolWc3 rfl (by decide) rfl
    (by decide) hreach rfl

end EventHub
